import Mathlib

/-!
Verification of `src/steam_download_monitor.py` against its specification.

The Python source is shallowly embedded: text is modelled as `List Char`
(log files are ASCII, LF-separated), byte streams as `List ℕ` (each < 256),
Python floats as `ℚ`, fallible values as `Option`, and filesystem effects
(existence, per-file stat results) as explicit parameters.
-/

namespace SteamDownloadMonitor

/-- Embeds `PAUSE_EPS_BYTES_PER_MIN = 256 * 1024` (line 11 of the source). -/
def PAUSE_EPS_BYTES_PER_MIN : ℕ := 256 * 1024

/-- Embeds `LOG_SPEED_EPS_MB_S = 0.10` (line 12 of the source), as a rational. -/
def LOG_SPEED_EPS_MB_S : ℚ := 1 / 10

/-- Embeds Python `str.lower()` on a line of ASCII text. -/
def toLowerList (cs : List Char) : List Char := cs.map Char.toLower

/-- Embeds the Python `in` operator on strings: `needle in hay`
(substring containment). -/
def containsSub (hay needle : List Char) : Bool :=
  hay.tails.any (fun t => needle.isPrefixOf t)

/-- Splits a character list on newline characters, keeping empty pieces. -/
def splitNlAux : List Char → List Char → List (List Char)
  | [], acc => [acc.reverse]
  | c :: rest, acc =>
      if c = '\n' then acc.reverse :: splitNlAux rest []
      else splitNlAux rest (c :: acc)

/-- Embeds Python `str.splitlines()` for LF-separated text: splits on
newline characters, and a trailing newline produces no trailing empty
line (`"".splitlines() = []`, `"a\nb\n".splitlines() = ["a", "b"]`). -/
def pySplitlines (cs : List Char) : List (List Char) :=
  if cs.isEmpty then []
  else if cs.getLast? = some '\n' then (splitNlAux cs []).dropLast
  else splitNlAux cs []

/-- Takes the maximal leading run of decimal digits (regex `\d+`, greedy). -/
def takeDigits : List Char → List Char × List Char
  | [] => ([], [])
  | c :: rest =>
      if c.isDigit then
        let (ds, r) := takeDigits rest
        (c :: ds, r)
      else ([], c :: rest)

/-- Numeric value of a digit run. -/
def digitsVal (ds : List Char) : ℕ :=
  ds.foldl (fun a c => a * 10 + (c.toNat - 48)) 0

/-- Embeds the regex group `(?P<value>\d+(?:[.,]\d+)?)` followed by Python
`float(value.replace(",", "."))` (lines 216-224 of the source): parses the
leading number (decimal comma or point accepted) and returns the remaining
characters. The Python float is idealised as a rational. -/
def parseNumber (cs : List Char) : Option (ℚ × List Char) :=
  match takeDigits cs with
  | ([], _) => none
  | (ds, rest) =>
      let ip : ℚ := (digitsVal ds : ℕ)
      match rest with
      | c :: rest2 =>
          if c = '.' ∨ c = ',' then
            match takeDigits rest2 with
            | ([], _) => some (ip, rest)
            | (fs, rest3) => some (ip + (digitsVal fs : ℚ) / (10 : ℚ) ^ fs.length, rest3)
          else some (ip, rest)
      | [] => some (ip, [])

/-- Embeds regex `\s*`: skips whitespace characters (ASCII range of
Python `\s`). -/
def skipWs : List Char → List Char
  | [] => []
  | c :: rest =>
      if c = ' ' ∨ c = '\t' ∨ c = '\n' ∨ c = '\r' ∨ c.toNat = 11 ∨ c.toNat = 12 then
        skipWs rest
      else c :: rest

/-- Embeds lines 226-243 of `parse_speed_from_line`: converts a parsed
value and its (lowercased) unit to bytes/sec.  Binary prefixes `gi`/`mi`/`ki`
use base 1024, decimal `g`/`m`/`k` use base 1000, and a unit containing
`bit` or ending in `bps` is divided by 8. -/
def convert_unit (value : ℚ) (unit : List Char) : ℚ :=
  let is_bits : Bool := containsSub unit ("bit".toList) || ("bps".toList).isSuffixOf unit
  let v :=
    if ("gi".toList).isPrefixOf unit then value * 1024 ^ 3
    else if ("mi".toList).isPrefixOf unit then value * 1024 ^ 2
    else if ("ki".toList).isPrefixOf unit then value * 1024
    else if ("g".toList).isPrefixOf unit then value * 1000 ^ 3
    else if ("m".toList).isPrefixOf unit then value * 1000 ^ 2
    else if ("k".toList).isPrefixOf unit then value * 1000
    else value
  if is_bits then v / 8 else v

/-- Tries each unit alternative in order at the current position (regex
alternation, leftmost alternative first); when `slashS` is set the unit
must be followed by the literal `/s`. Returns the matched unit. -/
def tryUnits (units : List (List Char)) (slashS : Bool) (cs : List Char) : Option (List Char) :=
  match units with
  | [] => none
  | u :: rest =>
      if u.isPrefixOf cs && (!slashS || ("/s".toList).isPrefixOf (cs.drop u.length)) then some u
      else tryUnits rest slashS cs

/-- Embeds `re.search` for one of the three patterns of
`parse_speed_from_line`: scans start positions left to right; at each
position matches `\d+(?:[.,]\d+)?`, then `\s*`, then a unit alternative
(with `/s` when the pattern requires it), and converts via
`convert_unit`. -/
def searchPatternAux (units : List (List Char)) (slashS : Bool) : List Char → Option ℚ
  | [] => none
  | c :: rest =>
      match parseNumber (c :: rest) with
      | some (v, after) =>
          match tryUnits units slashS (skipWs after) with
          | some u => some (convert_unit v u)
          | none => searchPatternAux units slashS rest
      | none => searchPatternAux units slashS rest

/-- Unit alternatives of the first pattern `(kbit|mbit|gbit)/s`. -/
def bit_units : List (List Char) := ["kbit".toList, "mbit".toList, "gbit".toList]

/-- Unit alternatives of the second pattern `(kb|mb|gb|kib|mib|gib)/s`. -/
def byte_units : List (List Char) :=
  ["kb".toList, "mb".toList, "gb".toList, "kib".toList, "mib".toList, "gib".toList]

/-- Unit alternatives of the third pattern `(kbps|mbps|gbps)`. -/
def bps_units : List (List Char) := ["kbps".toList, "mbps".toList, "gbps".toList]

/-- Embeds `parse_speed_from_line` (lines 210-244): tries the three
patterns in order on the line (matching is case-insensitive, modelled by
lowercasing the line first; the patterns are all-lowercase and digits are
unaffected) and returns bytes/sec for the first match, else `none`. -/
def parse_speed_from_line (line : List Char) : Option ℚ :=
  let low := toLowerList line
  match searchPatternAux bit_units true low with
  | some v => some v
  | none =>
      match searchPatternAux byte_units true low with
      | some v => some v
      | none => searchPatternAux bps_units false low

/-- Pause-family keywords of `find_pause_resume_indices` (line 191). -/
def pause_markers : List (List Char) := ["pause".toList, "paused".toList, "pausing".toList]

/-- Resume-family keywords of `find_pause_resume_indices` (line 192). -/
def resume_markers : List (List Char) :=
  ["resume".toList, "resumed".toList, "unpause".toList, "unpaused".toList]

/-- Generic context keywords of `find_pause_resume_indices` (line 193). -/
def context_markers : List (List Char) :=
  ["download".toList, "content".toList, "depot".toList, "app".toList]

/-- The scanning loop of `find_pause_resume_indices` (lines 197-207): walks
lines from most recent to oldest carrying the enumeration index and the
indices found so far; skips lines mentioning neither the appid nor a
context keyword; records the first resume-family and first pause-family
hits; stops early once both are found. -/
def scanPauseResume : List (List Char) → List Char → ℕ → Option ℕ → Option ℕ →
    Option ℕ × Option ℕ
  | [], _, _, pidx, ridx => (pidx, ridx)
  | line :: rest, appid, idx, pidx, ridx =>
      let low := toLowerList line
      if !containsSub low appid && !(context_markers.any (fun m => containsSub low m)) then
        scanPauseResume rest appid (idx + 1) pidx ridx
      else
        let ridx2 := if ridx.isNone && resume_markers.any (fun m => containsSub low m)
                     then some idx else ridx
        let pidx2 := if pidx.isNone && pause_markers.any (fun m => containsSub low m)
                     then some idx else pidx
        if pidx2.isSome && ridx2.isSome then (pidx2, ridx2)
        else scanPauseResume rest appid (idx + 1) pidx2 ridx2

/-- Embeds `find_pause_resume_indices` (lines 190-208): returns
`(pause_idx, resume_idx)` over the reversed lines of the text
(index 0 = most recent line). -/
def find_pause_resume_indices (text appid : List Char) : Option ℕ × Option ℕ :=
  scanPauseResume (pySplitlines text).reverse appid 0 none none

/-- The scanning loop of `find_speed_in_text` (lines 248-255): walks lines
from most recent to oldest; skips lines mentioning neither the appid nor
`"download"`; returns the first parsed speed together with its index. -/
def scanSpeed : List (List Char) → List Char → ℕ → Option ℚ × Option ℕ
  | [], _, _ => (none, none)
  | line :: rest, appid, idx =>
      let low := toLowerList line
      if !containsSub low appid && !containsSub low ("download".toList) then
        scanSpeed rest appid (idx + 1)
      else
        match parse_speed_from_line line with
        | some v => (some v, some idx)
        | none => scanSpeed rest appid (idx + 1)

/-- Embeds `find_speed_in_text` (lines 247-255). -/
def find_speed_in_text (text appid : List Char) : Option ℚ × Option ℕ :=
  scanSpeed (pySplitlines text).reverse appid 0

/-- Embeds lines 321-325 of `main`: the provisional pause/resume decision.
`pause_idx is not None and (resume_idx is None or pause_idx < resume_idx)`
yields paused; symmetrically for resume; equal indices (or neither found)
leave the decision undetermined (`none`). -/
def pause_decision (pause_idx resume_idx : Option ℕ) : Option Bool :=
  match pause_idx, resume_idx with
  | some _, none => some true
  | some p, some r => if p < r then some true else if r < p then some false else none
  | none, some _ => some false
  | none, none => none

/-- Embeds the sub-condition `marker_idx is None or (speed_idx is not None
and speed_idx < marker_idx)` of lines 330-331 of `main`. -/
def speed_idx_ok (speed_idx marker_idx : Option ℕ) : Bool :=
  match marker_idx with
  | none => true
  | some m =>
      match speed_idx with
      | none => false
      | some s => decide (s < m)

/-- Embeds lines 327-333 of `main`: the log-derived rate is judged recent
enough to indicate active transfer. -/
def speed_is_recent (log_speed : Option ℚ) (speed_idx pause_idx resume_idx : Option ℕ) :
    Bool :=
  log_speed.isSome
    && !(pause_decision pause_idx resume_idx == some true)
    && speed_idx_ok speed_idx pause_idx
    && speed_idx_ok speed_idx resume_idx
    && (match log_speed with
        | none => false
        | some v => decide (v / (1024 * 1024) > LOG_SPEED_EPS_MB_S))

/-- Embeds the classifier of `main` (lines 318-341): from the per-minute
disk delta and the log state, produces `(paused, display speed in
bytes/sec)`. -/
def classify (delta : ℕ) (log_speed : Option ℚ) (speed_idx pause_idx resume_idx : Option ℕ) :
    Bool × ℚ :=
  let bytes_per_s_disk : ℚ := (delta : ℚ) / 60
  let paused_by_delta : Bool := decide (delta < PAUSE_EPS_BYTES_PER_MIN)
  let pd := pause_decision pause_idx resume_idx
  let recent := speed_is_recent log_speed speed_idx pause_idx resume_idx
  let bytes_per_s : ℚ := if recent then log_speed.getD 0 else bytes_per_s_disk
  let paused : Bool :=
    match pd with
    | some true => true
    | some false => paused_by_delta && !recent
    | none => paused_by_delta && !recent
  (paused, bytes_per_s)

/-- Embeds line 315 of `main`: `delta = max(0, cur - prev)` over Python
integers. -/
def compute_delta (prev cur : ℕ) : ℤ := max 0 ((cur : ℤ) - (prev : ℤ))

/-- Embeds `dir_size_bytes` (lines 20-31): filesystem effects are made
explicit — `present` is `path.exists()`, and `files` lists the outcome of
`stat` per regular file under the directory (`none` = the `OSError`
branch, which contributes nothing). -/
def dir_size_bytes (present : Bool) (files : List (Option ℕ)) : ℕ :=
  if !present then 0
  else (files.map (fun sz => sz.getD 0)).sum

/-- Valid UTF-8 continuation byte. -/
def contOk (b : ℕ) : Bool := 0x80 ≤ b && b < 0xC0

/-- One step of strict UTF-8 decoding, as CPython's codec performs it:
returns the decoded code point (or `none` on an invalid sequence) and the
number of bytes consumed (for an invalid sequence, the length of the
maximal valid prefix, at least 1 — the bytes the error handler skips). -/
def utf8Next (b : ℕ) (rest : List ℕ) : Option ℕ × ℕ :=
  if b < 0x80 then (some b, 1)
  else if 0xC2 ≤ b && b ≤ 0xDF then
    match rest with
    | c1 :: _ =>
        if contOk c1 then (some ((b - 0xC0) * 0x40 + (c1 - 0x80)), 2) else (none, 1)
    | [] => (none, 1)
  else if 0xE0 ≤ b && b ≤ 0xEF then
    let lo1 := if b = 0xE0 then 0xA0 else 0x80
    let hi1 := if b = 0xED then 0x9F else 0xBF
    match rest with
    | c1 :: rest2 =>
        if lo1 ≤ c1 && c1 ≤ hi1 then
          match rest2 with
          | c2 :: _ =>
              if contOk c2 then
                (some ((b - 0xE0) * 0x1000 + (c1 - 0x80) * 0x40 + (c2 - 0x80)), 3)
              else (none, 2)
          | [] => (none, 2)
        else (none, 1)
    | [] => (none, 1)
  else if 0xF0 ≤ b && b ≤ 0xF4 then
    let lo1 := if b = 0xF0 then 0x90 else 0x80
    let hi1 := if b = 0xF4 then 0x8F else 0xBF
    match rest with
    | c1 :: rest2 =>
        if lo1 ≤ c1 && c1 ≤ hi1 then
          match rest2 with
          | c2 :: rest3 =>
              if contOk c2 then
                match rest3 with
                | c3 :: _ =>
                    if contOk c3 then
                      (some ((b - 0xF0) * 0x40000 + (c1 - 0x80) * 0x1000 +
                        (c2 - 0x80) * 0x40 + (c3 - 0x80)), 4)
                    else (none, 3)
                | [] => (none, 3)
              else (none, 2)
          | [] => (none, 2)
        else (none, 1)
    | [] => (none, 1)
  else (none, 1)

/-- Decodes a byte list to code points, emitting `repl` in place of each
invalid sequence; `fuel` bounds the recursion (each step consumes at least
one byte, so `fuel = length` suffices). -/
def utf8DecodeAux (repl : List ℕ) : ℕ → List ℕ → List ℕ
  | 0, _ => []
  | _, [] => []
  | fuel + 1, b :: rest =>
      match utf8Next b rest with
      | (some cp, k) => cp :: utf8DecodeAux repl fuel (rest.drop (k - 1))
      | (none, k) => repl ++ utf8DecodeAux repl fuel (rest.drop (k - 1))

/-- Embeds Python `bytes.decode("utf-8", errors="ignore")` (line 43 of the
source): invalid sequences are dropped. -/
def utf8_decode_ignore (bs : List ℕ) : List ℕ := utf8DecodeAux [] bs.length bs

/-- Modelled from the spec: the spec's words "invalid byte sequences
replaced" describe `errors="replace"` decoding, which emits U+FFFD for
each invalid sequence.  This definition exists only to be compared with
`utf8_decode_ignore`, the decoding the source actually performs. -/
def utf8_decode_replace (bs : List ℕ) : List ℕ := utf8DecodeAux [0xFFFD] bs.length bs

/-- Embeds `tail_text` (lines 34-45): filesystem effects are explicit —
`present` is `path.exists()`, `readable` is whether the open/seek/read
succeeds (the `OSError` branch returns the empty string), and `content`
is the file's bytes.  The code seeks to `max(0, size - max_bytes)` and
reads to the end, then decodes with `errors="ignore"`. -/
def tail_text (present readable : Bool) (content : List ℕ) (max_bytes : ℕ) : List ℕ :=
  if !present then []
  else if !readable then []
  else utf8_decode_ignore (content.drop (content.length - max_bytes))

/-- Modelled from the spec: `tail_text` as the spec's words describe it,
with invalid byte sequences replaced (U+FFFD) instead of dropped; to be
compared with `tail_text`. -/
def tail_text_replace (present readable : Bool) (content : List ℕ) (max_bytes : ℕ) : List ℕ :=
  if !present then []
  else if !readable then []
  else utf8_decode_replace (content.drop (content.length - max_bytes))

/-- Embeds Python `str(p).lower()` (line 121). -/
def strLower (s : String) : String := String.mk (toLowerList s.toList)

/-- The deduplication loop of `parse_libraryfolders_vdf` (lines 117-125):
walks the candidate paths, keeping the first occurrence of each
case-insensitive equivalence class (`seen` holds the lowercased forms
already emitted). -/
def dedupeAux : List String → List String → List String
  | [], _ => []
  | p :: rest, seen =>
      let s := strLower p
      if s ∈ seen then dedupeAux rest seen
      else p :: dedupeAux rest (s :: seen)

/-- Case-insensitive, order-preserving deduplication of candidate library
paths (lines 117-125 of `parse_libraryfolders_vdf`). -/
def dedupe_libs (libs : List String) : List String := dedupeAux libs []

/-- Embeds `get_steam_libraries` (lines 128-138): starts from
`[steam_root]` and appends each extra library parsed from the VDF that is
not already in the list.  Paths are modelled as strings and Python `Path`
equality as string equality; `extra` stands for the output of
`parse_libraryfolders_vdf`. -/
def get_steam_libraries (steam_root : String) (extra : List String) : List String :=
  extra.foldl (fun libs p => if p ∈ libs then libs else libs ++ [p]) [steam_root]

/-! Helper lemmas shared by the claim theorems. -/

/-- The paused component of `classify`: a pause decision of paused forces
the paused verdict; otherwise the delta-and-rate fallback decides. -/
theorem classify_fst (delta : ℕ) (log_speed : Option ℚ)
    (speed_idx pause_idx resume_idx : Option ℕ) :
    (classify delta log_speed speed_idx pause_idx resume_idx).1 =
      if pause_decision pause_idx resume_idx = some true then true
      else decide (delta < PAUSE_EPS_BYTES_PER_MIN)
        && !speed_is_recent log_speed speed_idx pause_idx resume_idx := by
  unfold classify
  rcases h : pause_decision pause_idx resume_idx with _ | b
  · simp [h]
  · cases b <;> simp [h]

/-- The display-speed component of `classify`. -/
theorem classify_snd (delta : ℕ) (log_speed : Option ℚ)
    (speed_idx pause_idx resume_idx : Option ℕ) :
    (classify delta log_speed speed_idx pause_idx resume_idx).2 =
      if speed_is_recent log_speed speed_idx pause_idx resume_idx
      then log_speed.getD 0 else (delta : ℚ) / 60 := rfl

/-- The accumulator's head survives the `get_steam_libraries` fold. -/
theorem get_steam_libraries_aux (l : List String) :
    ∀ (a : String) (t : List String),
      (l.foldl (fun libs p => if p ∈ libs then libs else libs ++ [p]) (a :: t)).head? =
        some a := by
  induction l with
  | nil => intro a t; rfl
  | cons p rest ih =>
      intro a t
      simp only [List.foldl_cons]
      by_cases h : p ∈ a :: t
      · simpa [h] using ih a t
      · simpa [h] using ih a (t ++ [p])

/-- Deduplication only removes elements: the output is a sublist of the
input, so first-seen order is preserved. -/
theorem dedupeAux_sublist (libs : List String) :
    ∀ seen, (dedupeAux libs seen).Sublist libs := by
  induction libs with
  | nil => intro seen; simp [dedupeAux]
  | cons p rest ih =>
      intro seen
      simp only [dedupeAux]
      by_cases h : strLower p ∈ seen
      · simpa [h] using (ih seen).cons p
      · simpa [h] using (ih (strLower p :: seen)).cons₂ p

/-- Deduplication is case-insensitive: no output element's lowercase form
is in `seen`, and no two output elements share a lowercase form. -/
theorem dedupeAux_lower_spec (libs : List String) :
    ∀ seen, (∀ x ∈ dedupeAux libs seen, strLower x ∉ seen)
      ∧ (dedupeAux libs seen).Pairwise (fun a b => strLower a ≠ strLower b) := by
  induction libs with
  | nil => intro seen; simp [dedupeAux]
  | cons p rest ih =>
      intro seen
      simp only [dedupeAux]
      by_cases h : strLower p ∈ seen
      · simpa [h] using ih seen
      · simp only [h, if_false]
        obtain ⟨hmem, hpw⟩ := ih (strLower p :: seen)
        refine ⟨?_, ?_⟩
        · intro x hx
          rcases List.mem_cons.mp hx with rfl | hx2
          · exact h
          · exact fun hseen => hmem x hx2 (List.mem_cons_of_mem _ hseen)
        · refine List.Pairwise.cons (fun y hy heq => ?_) hpw
          exact hmem y hy (heq ▸ List.mem_cons_self _ _)

/-! Concrete log texts used in witnesses and counterexamples. -/

/-- The target identifier used in the concrete examples. -/
def appid123 : List Char := "123".toList

/-- A log tail whose only qualifying line is a pause line (recency
index 0). -/
def c1_text : List Char := "app 123 paused".toList

/-- A log tail with a resumed line at recency index 2 and a paused line at
recency index 5, both mentioning the target identifier; the `zzz` filler
lines qualify for neither scan. -/
def c2_text : List Char :=
  "app 123 paused\nzzz\nzzz\napp 123 resumed\nzzz\nzzz".toList

/-- A log tail whose only qualifying line carries only the marker
`unpaused`. -/
def c10_text : List Char := "download unpaused".toList

/-! Claim theorems. -/

/-- Claim C1: if the pause/resume scan finds a pause-family line whose
recency index is strictly smaller than any resume-family line's index (or
finds only a pause line), the classifier reports paused regardless of the
disk delta and of any log-derived rate. -/
theorem C1_pause_overrides (text appid : List Char) (delta : ℕ) (log_speed : Option ℚ)
    (speed_idx : Option ℕ) (p : ℕ)
    (hp : (find_pause_resume_indices text appid).1 = some p)
    (hr : (find_pause_resume_indices text appid).2 = none ∨
      ∀ r, (find_pause_resume_indices text appid).2 = some r → p < r) :
    (classify delta log_speed speed_idx (find_pause_resume_indices text appid).1
      (find_pause_resume_indices text appid).2).1 = true := by
  have hpd : pause_decision (find_pause_resume_indices text appid).1
      (find_pause_resume_indices text appid).2 = some true := by
    rw [hp]
    rcases hri : (find_pause_resume_indices text appid).2 with _ | r
    · rfl
    · have hlt2 : p < r := by
        rcases hr with hnone | hlt
        · rw [hnone] at hri; cases hri
        · exact hlt r hri
      simp [pause_decision, hlt2]
  rw [classify_fst, hpd]
  simp

/-- Witness for C1: a 10 MB disk delta and a 10 MB/s log rate do not
override the explicit most-recent pause line. -/
theorem C1_pause_overrides_witness :
    (classify (10 * 1024 * 1024) (some (10 * 1048576)) (some 0)
      (find_pause_resume_indices c1_text appid123).1
      (find_pause_resume_indices c1_text appid123).2).1 = true :=
  C1_pause_overrides c1_text appid123 (10 * 1024 * 1024) (some (10 * 1048576)) (some 0) 0
    (by decide) (Or.inl (by decide))

/-- Claim C2 counterexample: with a resumed line at recency index 2 and a
paused line at index 5 (both mentioning the identifier), a zero disk delta
and no log rate, the classifier reports paused = true, contradicting the
claim that it reports paused = false. -/
theorem C2_counterexample :
    find_pause_resume_indices c2_text appid123 = (some 5, some 2)
    ∧ (classify 0 none none (some 5) (some 2)).1 = true := by decide

/-- Claim C2 (amended): when the scan finds a resume-family line strictly
more recent than the pause-family line, the provisional decision is active
(`some false`), and the final verdict is the delta-and-rate fallback:
paused iff the disk delta is below 256 KB/min and no trusted log rate is
present. -/
theorem C2_resume_more_recent (text appid : List Char) (delta : ℕ) (log_speed : Option ℚ)
    (speed_idx : Option ℕ) (p r : ℕ)
    (hfind : find_pause_resume_indices text appid = (some p, some r))
    (hlt : r < p) :
    pause_decision (find_pause_resume_indices text appid).1
      (find_pause_resume_indices text appid).2 = some false
    ∧ (classify delta log_speed speed_idx (find_pause_resume_indices text appid).1
        (find_pause_resume_indices text appid).2).1 =
      (decide (delta < PAUSE_EPS_BYTES_PER_MIN)
        && !speed_is_recent log_speed speed_idx (some p) (some r)) := by
  rw [hfind]
  have hpd : pause_decision (some p) (some r) = some false := by
    simp [pause_decision, hlt, Nat.lt_asymm hlt]
  refine ⟨hpd, ?_⟩
  rw [classify_fst, hpd]
  simp

/-- Witness for the amended C2: same log tail, 10 MB disk delta, no log
rate — the fallback then reports downloading (paused = false). -/
theorem C2_resume_more_recent_witness :
    pause_decision (find_pause_resume_indices c2_text appid123).1
      (find_pause_resume_indices c2_text appid123).2 = some false
    ∧ (classify (10 * 1024 * 1024) none none
        (find_pause_resume_indices c2_text appid123).1
        (find_pause_resume_indices c2_text appid123).2).1 =
      (decide ((10 * 1024 * 1024 : ℕ) < PAUSE_EPS_BYTES_PER_MIN)
        && !speed_is_recent none none (some 5) (some 2)) :=
  C2_resume_more_recent c2_text appid123 (10 * 1024 * 1024) none none 5 2
    (by decide) (by decide)

/-- Claim C5: with no pause/resume marker and no log rate found, a 5 MB
disk delta (above the 256 KB/min threshold) yields paused = false and a
display speed of the disk-delta rate, 5 MB divided by 60 seconds. -/
theorem C5_no_signals_5mb :
    find_pause_resume_indices [] appid123 = (none, none)
    ∧ find_speed_in_text [] appid123 = (none, none)
    ∧ (classify (5 * 1024 * 1024) none none none none).1 = false
    ∧ (classify (5 * 1024 * 1024) none none none none).2 = (5 * 1024 * 1024 : ℚ) / 60 := by
  refine ⟨by decide, by decide, by decide, ?_⟩
  rw [classify_snd]
  norm_num [speed_is_recent]

/-- Claim C9: the per-minute delta is clamped to be non-negative; it
equals `max 0 (cur - prev)`, so a shrinking directory reports 0, and a
growing one reports the exact growth. -/
theorem C9_delta_clamped (prev cur : ℕ) :
    0 ≤ compute_delta prev cur
    ∧ compute_delta prev cur = max 0 ((cur : ℤ) - (prev : ℤ))
    ∧ (cur ≤ prev → compute_delta prev cur = 0)
    ∧ (prev ≤ cur → compute_delta prev cur = (cur : ℤ) - (prev : ℤ)) := by
  refine ⟨le_max_left _ _, rfl, fun h => ?_, fun h => ?_⟩
  · exact max_eq_left (by omega)
  · exact max_eq_right (by omega)

/-- Witness for C9: a directory shrinking from 10 bytes to 3 reports a
delta of 0. -/
theorem C9_delta_clamped_witness : compute_delta 10 3 = 0 :=
  (C9_delta_clamped 10 3).2.2.1 (by decide)

/-- Claim C10: a qualifying line whose only marker is `unpaused` sets the
pause index and the resume index to the same value (the resume keywords
contain the substring `pause`), equal indices leave the pause decision
undetermined, and the classifier then falls back to the delta-and-rate
rule. -/
theorem C10_unpause_sets_both (delta : ℕ) (log_speed : Option ℚ)
    (speed_idx : Option ℕ) (n : ℕ) :
    find_pause_resume_indices c10_text appid123 = (some 0, some 0)
    ∧ pause_decision (some n) (some n) = none
    ∧ (classify delta log_speed speed_idx (some n) (some n)).1 =
      (decide (delta < PAUSE_EPS_BYTES_PER_MIN)
        && !speed_is_recent log_speed speed_idx (some n) (some n)) := by
  refine ⟨by decide, ?_, ?_⟩
  · simp [pause_decision]
  · rw [classify_fst]
    simp [pause_decision]

/-- Witness for C10 at concrete inputs: equal indices 4 and a zero delta
with no log rate fall back to the delta rule. -/
theorem C10_unpause_sets_both_witness :
    find_pause_resume_indices c10_text appid123 = (some 0, some 0)
    ∧ pause_decision (some 4) (some 4) = none
    ∧ (classify 0 none none (some 4) (some 4)).1 =
      (decide ((0 : ℕ) < PAUSE_EPS_BYTES_PER_MIN)
        && !speed_is_recent none none (some 4) (some 4)) :=
  C10_unpause_sets_both 0 none none 4

/-- Claim C3 counterexample: with a 1 MB/s log rate at recency index 0, a
pause index of 3 and no resume index, the claim's condition holds (the
rate exceeds 0.10 MB/s and its index 0 is not later than the pause index 3,
there being no resume index), yet the code does not count the rate as
evidence of active transfer (the most recent event is a pause) and the
display speed is the disk rate 0, not the log rate. -/
theorem C3_counterexample :
    ((1048576 : ℚ) / (1024 * 1024) > LOG_SPEED_EPS_MB_S ∧ (0 : ℕ) < 3)
    ∧ speed_is_recent (some 1048576) (some 0) (some 3) none = false
    ∧ (classify 0 (some 1048576) (some 0) (some 3) none).2 = 0
    ∧ (0 : ℚ) ≠ 1048576 := by
  refine ⟨⟨by norm_num [LOG_SPEED_EPS_MB_S], by decide⟩, by decide, ?_, by norm_num⟩
  rw [classify_snd]
  norm_num [show speed_is_recent (some 1048576) (some 0) (some 3) none = false from by decide]

/-- Claim C3 (amended): the log-derived rate is used as the display speed
(and counts as evidence of active transfer) iff a log rate exists, the
provisional pause/resume decision is not paused, the rate's recency index
is strictly smaller than the pause index when one exists and strictly
smaller than the resume index when one exists, and the rate exceeds
0.10 MB/s; when this fails the display speed is the disk delta divided by
60. -/
theorem C3_speed_recency_rule (delta : ℕ) (log_speed : Option ℚ)
    (speed_idx pause_idx resume_idx : Option ℕ) :
    (speed_is_recent log_speed speed_idx pause_idx resume_idx = true ↔
      (∃ v, log_speed = some v ∧ v / (1024 * 1024) > LOG_SPEED_EPS_MB_S)
      ∧ pause_decision pause_idx resume_idx ≠ some true
      ∧ (∀ p, pause_idx = some p → ∃ s, speed_idx = some s ∧ s < p)
      ∧ (∀ r, resume_idx = some r → ∃ s, speed_idx = some s ∧ s < r))
    ∧ (classify delta log_speed speed_idx pause_idx resume_idx).2 =
      (if speed_is_recent log_speed speed_idx pause_idx resume_idx
        then log_speed.getD 0 else (delta : ℚ) / 60) := by
  refine ⟨?_, classify_snd delta log_speed speed_idx pause_idx resume_idx⟩
  rcases log_speed with _ | v <;> rcases speed_idx with _ | s <;>
    rcases pause_idx with _ | p <;> rcases resume_idx with _ | r <;>
      (simp [speed_is_recent, speed_idx_ok]; try tauto)

/-- Witness for the amended C3: a 1 MB/s log rate at recency index 0 with
no pause or resume marker at all is judged recent. -/
theorem C3_speed_recency_rule_witness :
    speed_is_recent (some 1048576) (some 0) none none = true :=
  ((C3_speed_recency_rule 0 (some 1048576) (some 0) none none).1).mpr
    ⟨⟨1048576, rfl, by norm_num [LOG_SPEED_EPS_MB_S]⟩, by decide, by simp, by simp⟩

/-- Claim C4: for every value, binary-prefixed units (ki/mi/gi) multiply
by 1024^n, decimal-prefixed units (k/m/g) multiply by 1000^n, and any
unit containing `bit` or ending in `bps` is additionally divided by 8;
in particular `12.5 Mbit/s` parses to exactly 1562500 bytes/sec. -/
theorem C4_unit_conversion :
    (∀ v : ℚ,
      convert_unit v ("kbit".toList) = v * 1000 / 8
      ∧ convert_unit v ("mbit".toList) = v * 1000 ^ 2 / 8
      ∧ convert_unit v ("gbit".toList) = v * 1000 ^ 3 / 8
      ∧ convert_unit v ("kbps".toList) = v * 1000 / 8
      ∧ convert_unit v ("mbps".toList) = v * 1000 ^ 2 / 8
      ∧ convert_unit v ("gbps".toList) = v * 1000 ^ 3 / 8
      ∧ convert_unit v ("kb".toList) = v * 1000
      ∧ convert_unit v ("mb".toList) = v * 1000 ^ 2
      ∧ convert_unit v ("gb".toList) = v * 1000 ^ 3
      ∧ convert_unit v ("kib".toList) = v * 1024
      ∧ convert_unit v ("mib".toList) = v * 1024 ^ 2
      ∧ convert_unit v ("gib".toList) = v * 1024 ^ 3)
    ∧ parse_speed_from_line ("12.5 Mbit/s".toList) = some 1562500 := by
  refine ⟨fun v => ⟨rfl, rfl, rfl, rfl, rfl, rfl, rfl, rfl, rfl, rfl, rfl, rfl⟩, ?_⟩
  have h : parse_speed_from_line ("12.5 Mbit/s".toList) =
      some ((((digitsVal ['1', '2'] : ℕ) : ℚ)
        + ((digitsVal ['5'] : ℕ) : ℚ) / (10 : ℚ) ^ (['5'] : List Char).length)
        * 1000 ^ 2 / 8) := rfl
  rw [h, show digitsVal ['1', '2'] = 12 from rfl, show digitsVal ['5'] = 5 from rfl]
  norm_num

/-- Claim C6: `dir_size_bytes` sums the sizes of the regular files under
the directory, a per-file stat failure contributes zero without aborting
the walk, a non-existent directory yields 0, and the total is invariant
under the order in which files are visited. -/
theorem C6_dir_size (present : Bool) (files files2 : List (Option ℕ))
    (hperm : files.Perm files2) :
    dir_size_bytes present files = dir_size_bytes present files2
    ∧ dir_size_bytes false files = 0
    ∧ dir_size_bytes present (none :: files) = dir_size_bytes present files := by
  refine ⟨?_, rfl, ?_⟩
  · unfold dir_size_bytes
    cases present
    · rfl
    · simpa using (hperm.map (fun sz => sz.getD 0)).sum_eq
  · unfold dir_size_bytes
    cases present <;> simp

/-- Witness for C6: a concrete walk in two different orders, with one
failing stat, sums to the same total. -/
theorem C6_dir_size_witness :
    dir_size_bytes true [some 5, none, some 3] = dir_size_bytes true [some 3, some 5, none]
    ∧ dir_size_bytes false [some 5, none, some 3] = 0
    ∧ dir_size_bytes true (none :: [some 5, none, some 3]) =
      dir_size_bytes true [some 5, none, some 3] :=
  C6_dir_size true [some 5, none, some 3] [some 3, some 5, none] (by decide)

/-- Claim C7: library-path deduplication is case-insensitive and preserves
first-seen order (the given concrete example, plus: the output is a
sublist of the input and no two output elements share a lowercase form),
and the library list returned by `get_steam_libraries` always has the
install root as its first element. -/
theorem C7_dedupe_and_root (root : String) (extra libs : List String) :
    dedupe_libs ["C:\\A", "c:\\a", "C:\\B"] = ["C:\\A", "C:\\B"]
    ∧ (get_steam_libraries root extra).head? = some root
    ∧ (dedupe_libs libs).Sublist libs
    ∧ (dedupe_libs libs).Pairwise (fun a b => strLower a ≠ strLower b) :=
  ⟨by decide, get_steam_libraries_aux extra root [],
    dedupeAux_sublist libs [], (dedupeAux_lower_spec libs []).2⟩

set_option maxRecDepth 4000 in
/-- Claim C8 counterexample: the code decodes the tail with
`errors="ignore"`, so the invalid byte 0xFF is dropped; the claim says
invalid sequences are replaced, which would yield U+FFFD instead — the
two behaviours differ on the bytes `61 FF 62`. -/
theorem C8_counterexample :
    tail_text true true [0x61, 0xFF, 0x62] 200000 = [0x61, 0x62]
    ∧ tail_text_replace true true [0x61, 0xFF, 0x62] 200000 = [0x61, 0xFFFD, 0x62]
    ∧ tail_text true true [0x61, 0xFF, 0x62] 200000 ≠
        tail_text_replace true true [0x61, 0xFF, 0x62] 200000 := by decide

set_option maxRecDepth 4000 in
/-- Claim C8 (amended): `tail_text` reads at most the last 200000 bytes
(its result depends only on them), returns the empty string when the file
is absent or unreadable, and decodes permissively with invalid byte
sequences dropped rather than raising. -/
theorem C8_tail_text (present readable : Bool) (content : List ℕ) (n : ℕ) :
    tail_text present readable content n =
      tail_text present readable (content.drop (content.length - n)) n
    ∧ tail_text false readable content 200000 = []
    ∧ tail_text true false content 200000 = []
    ∧ tail_text true true [0x61, 0xFF, 0x62] 200000 = [0x61, 0x62] := by
  refine ⟨?_, rfl, rfl, by decide⟩
  unfold tail_text
  cases present
  · simp
  · cases readable
    · simp
    · simp only [Bool.not_true, Bool.false_eq_true, if_false, ite_false]
      congr 1
      rw [List.length_drop, List.drop_drop]
      congr 1
      omega

end SteamDownloadMonitor
